import Mathlib

/-
Verification of the RootRepo version-control engine.

The development shallowly embeds the three source variants of the RootRepo
class.  File contents, digests, messages and paths are modelled as lists of
characters (the bytes the JavaScript code manipulates as strings).  The
object store is the on-disk map from digest to raw bytes; HEAD is the raw
content of the HEAD file; the index is the parsed content of the index file
(its JSON round-trips exactly, so it is kept in structured form); config is
the parsed content of the config file.  The SHA-256 hash is an explicit
function parameter of every operation that hashes, since its only relevant
properties here are determinism and injectivity.
-/

/-- Strings are modelled as lists of characters. -/
abbrev Str := List Char

/-- Whitespace test used by the model of JavaScript String.trim (the source
strings only ever contain ASCII whitespace). -/
def isWsChar (c : Char) : Bool := c = ' ' || c = '\n' || c = '\t' || c = '\r'

/-- Model of JavaScript String.trim: drop whitespace from both ends. -/
def trimL (s : Str) : Str := ((s.dropWhile isWsChar).reverse.dropWhile isWsChar).reverse

/-- One staging-area entry, as pushed by updateStagingArea:
index.push(\x7b path: filePath, hash: fileHash \x7d). -/
structure Entry where
  path : Str
  hash : Str
deriving DecidableEq, Repr

/-- The commit record built by commit:
\x7b timeStamp, message, files, parent \x7d (part_000 and part_001 both use the
key "files"; parent is a string digest or null). -/
structure CommitData where
  timeStamp : Str
  message : Str
  files : List Entry
  parent : Option Str
deriving DecidableEq, Repr

/-- Model of JSON.stringify string escaping.  The quote and backslash escapes
are the general case; control-character escapes are not modelled because no
theorem depends on the exact bytes of a serialized form, only on equality of
serialized forms, which this simplified escaping preserves (it is injective,
like the real one). -/
def escChar (c : Char) : Str := if c = '\"' || c = '\\' then ['\\', c] else [c]

/-- Escape every character of a string body. -/
def escStr (s : Str) : Str := s.foldr (fun c acc => escChar c ++ acc) []

/-- A JSON string literal: quote, escaped body, quote. -/
def qStr (s : Str) : Str := '\"' :: (escStr s ++ ['\"'])

/-- Serialization of one staging entry inside JSON.stringify(index). -/
def serializeEntry (e : Entry) : Str :=
  ("\x7b\"path\":").data ++ qStr e.path ++ (",\"hash\":").data ++ qStr e.hash ++ ("\x7d").data

/-- Comma-join a list of serialized fragments. -/
def joinComma : List Str → Str
  | [] => []
  | [x] => x
  | x :: xs => x ++ ',' :: joinComma xs

/-- JSON.stringify of the staged-entries array, the form compared by
part_000's duplicate-commit suppression. -/
def serializeEntries (l : List Entry) : Str :=
  '[' :: (joinComma (l.map serializeEntry) ++ [']'])

/-- JSON.stringify(commitData): the byte form hashed to produce the commit
digest, and the stored form in RootRepo.mjs and part_001. -/
def serializeCommit (c : CommitData) : Str :=
  ("\x7b\"timeStamp\":").data ++ qStr c.timeStamp
  ++ (",\"message\":").data ++ qStr c.message
  ++ (",\"files\":").data ++ serializeEntries c.files
  ++ (",\"parent\":").data ++ (match c.parent with | none => ("null").data | some p => qStr p)
  ++ ("\x7d").data

/-- One entry of JSON.stringify(commitData, null, 2) as stored by part_000
(indentation level: the entry object sits at depth 2 of the record). -/
def serializeEntryPretty (e : Entry) : Str :=
  ("    \x7b\n      \"path\": ").data ++ qStr e.path
  ++ (",\n      \"hash\": ").data ++ qStr e.hash ++ ("\n    \x7d").data

/-- Join pretty-printed fragments with a comma and newline. -/
def joinCommaNl : List Str → Str
  | [] => []
  | [x] => x
  | x :: xs => x ++ (",\n").data ++ joinCommaNl xs

/-- Pretty form of the files array under JSON.stringify(_, null, 2). -/
def serializeEntriesPretty : List Entry → Str
  | [] => ("[]").data
  | l => ("[\n").data ++ joinCommaNl (l.map serializeEntryPretty) ++ ("\n  ]").data

/-- JSON.stringify(commitData, null, 2): the byte form part_000 writes into
the object store (its commit digest is still computed over the compact
serializeCommit form). -/
def serializeCommitPretty (c : CommitData) : Str :=
  ("\x7b\n  \"timeStamp\": ").data ++ qStr c.timeStamp
  ++ (",\n  \"message\": ").data ++ qStr c.message
  ++ (",\n  \"files\": ").data ++ serializeEntriesPretty c.files
  ++ (",\n  \"parent\": ").data
  ++ (match c.parent with | none => ("null").data | some p => qStr p)
  ++ ("\n\x7d").data

/-- Opening brace character, for parser patterns. -/
def lbrace : Char := Char.ofNat 123

/-- Closing brace character, for parser patterns. -/
def rbrace : Char := Char.ofNat 125

/-- Skip JSON inter-token whitespace (JSON.parse accepts both the compact and
the pretty stored forms). -/
def skipWs (s : Str) : Str := s.dropWhile isWsChar

/-- Expect one token character after optional whitespace. -/
def expectTok (c : Char) (s : Str) : Option Str :=
  match skipWs s with
  | d :: r => if d = c then some r else none
  | [] => none

/-- Consume an exact character sequence. -/
def dropChars : Str → Str → Option Str
  | [], s => some s
  | c :: l, d :: s => if c = d then dropChars l s else none
  | _ :: _, [] => none

/-- Parse the body of a JSON string literal after its opening quote,
undoing the escaping of escChar; fuelled for termination. -/
def parseStrBody : Nat → Str → Option (Str × Str)
  | 0, _ => none
  | _ + 1, [] => none
  | f + 1, c :: rest =>
    if c = '\"' then some ([], rest)
    else if c = '\\' then
      match rest with
      | [] => none
      | e :: r2 => (parseStrBody f r2).map (fun p => (e :: p.1, p.2))
    else (parseStrBody f rest).map (fun p => (c :: p.1, p.2))

/-- Parse a JSON string literal, whitespace-tolerant before the quote. -/
def parseQStr (f : Nat) (s : Str) : Option (Str × Str) :=
  match skipWs s with
  | '\"' :: r => parseStrBody f r
  | _ => none

/-- Parse a fixed object key followed by a colon. -/
def parseKey (key : Str) (s : Str) : Option Str := do
  let r ← expectTok '\"' s
  let r ← dropChars key r
  let r ← (match r with | '\"' :: r2 => some r2 | _ => none)
  expectTok ':' r

/-- Parse one staged-entry object \x7b"path":…,"hash":…\x7d. -/
def parseEntryObj (f : Nat) (s : Str) : Option (Entry × Str) := do
  let r ← expectTok lbrace s
  let r ← parseKey (("path").data) r
  let (p, r) ← parseQStr f r
  let r ← expectTok ',' r
  let r ← parseKey (("hash").data) r
  let (h, r) ← parseQStr f r
  let r ← expectTok rbrace r
  pure (⟨p, h⟩, r)

/-- Parse the remaining entries of a non-empty files array. -/
def parseEntriesTail : Nat → Str → Option (List Entry × Str)
  | 0, _ => none
  | f + 1, s => do
    let (e, r) ← parseEntryObj f s
    match skipWs r with
    | ',' :: r2 => (parseEntriesTail f r2).map (fun p => (e :: p.1, p.2))
    | ']' :: r2 => pure ([e], r2)
    | _ => none

/-- Parse a JSON array of staged entries. -/
def parseEntryList (f : Nat) (s : Str) : Option (List Entry × Str) := do
  let r ← expectTok '[' s
  match skipWs r with
  | ']' :: r2 => pure ([], r2)
  | _ => parseEntriesTail f r

/-- Parse the parent field: a string digest or the literal null. -/
def parseParent (f : Nat) (s : Str) : Option (Option Str × Str) :=
  match skipWs s with
  | '\"' :: r => (parseStrBody f r).map (fun p => (some p.1, p.2))
  | s2 => (dropChars (("null").data) s2).map (fun r => ((none : Option Str), r))

/-- Model of JSON.parse specialised to the commit-record schema written by
commit; accepts both the compact and the pretty stored layouts. -/
def parseCommit (s : Str) : Option CommitData := do
  let f := s.length + 1
  let r ← expectTok lbrace s
  let r ← parseKey (("timeStamp").data) r
  let (ts, r) ← parseQStr f r
  let r ← expectTok ',' r
  let r ← parseKey (("message").data) r
  let (msg, r) ← parseQStr f r
  let r ← expectTok ',' r
  let r ← parseKey (("files").data) r
  let (fl, r) ← parseEntryList f r
  let r ← expectTok ',' r
  let r ← parseKey (("parent").data) r
  let (par, r) ← parseParent f r
  let r ← expectTok rbrace r
  if skipWs r = [] then pure ⟨ts, msg, fl, par⟩ else none

/-- The object store: the on-disk mapping digest to raw bytes
(objects/ab/cdef…, keyed here by the whole digest since the two-level split
is a bijective path encoding of the digest). -/
abbrev Store := List (Str × Str)

/-- Read the bytes stored under a digest. -/
def lookupStore : Store → Str → Option Str
  | [], _ => none
  | (d, c) :: s, k => if d = k then some c else lookupStore s k

/-- An unconditional fs.writeFile into the object store (overwrites). -/
def putOver (st : Store) (d c : Str) : Store := (d, c) :: st

/-- The persisted repository state: object store, raw HEAD file content
(none when the file is missing), parsed index file, parsed config file
(none when the file is missing or unparseable; some none when remote is
null). -/
structure RState where
  store : Store
  head : Option Str
  index : List Entry
  config : Option (Option Str)
deriving DecidableEq, Repr

/-- One observable write performed by commit, in program order. -/
inductive Eff where
  | writeObject (digest : Str) (bytes : Str)
  | writeHead (digest : Str)
  | writeIndex (entries : List Entry)
deriving DecidableEq, Repr

/-- Replay one write against a state. -/
def applyEff (s : RState) : Eff → RState
  | .writeObject d b => { s with store := putOver s.store d b }
  | .writeHead d => { s with head := some d }
  | .writeIndex l => { s with index := l }

/-- Outcome reported by commit on the console. -/
inductive CommitResult where
  | emptyMessage
  | nothingToCommit
  | noChanges
  | parentReadFailed
  | committed (digest : Str)
deriving DecidableEq, Repr

/-- Outcome reported by add. -/
inductive AddResult where
  | added
  | addFailed
deriving DecidableEq, Repr

/-- Outcome reported by reset. -/
inductive ResetResult where
  | notStaged
  | unstaged
deriving DecidableEq, Repr

/-- Outcome reported by push. -/
inductive PushResult where
  | noRemoteSet
  | remoteNotConfigured
  | nothingToPush
  | commitDataMissing
  | pushOk
  | pushFailed
  | pushErrored
deriving DecidableEq, Repr

namespace Part001

/-- Fresh repository state after part_001's init: empty object store, HEAD
file containing the string main, empty index, config with remote null. -/
def initState : RState :=
  { store := [], head := some (("main").data), index := [], config := some none }

/-- part_001 getCurrentHead: read the HEAD file and trim it; null only when
the file is missing. -/
def getCurrentHead (s : RState) : Option Str := s.head.map trimL

/-- part_001 updateStagingArea: push the entry unconditionally and write the
index back. -/
def updateStagingArea (s : RState) (p d : Str) : RState :=
  { s with index := s.index ++ [⟨p, d⟩] }

/-- part_001 add: read the working file, hash it, write the blob
unconditionally, then stage it; any failure is caught and reported.  The
working filesystem is the read-only parameter fsys; hashObject is the
parameter hashFn. -/
def add (hashFn : Str → Str) (fsys : Str → Option Str) (s : RState) (p : Str) :
    AddResult × RState :=
  match fsys p with
  | none => (AddResult.addFailed, s)
  | some fileData =>
    let d := hashFn fileData
    let s1 := { s with store := putOver s.store d fileData }
    (AddResult.added, updateStagingArea s1 p d)

/-- part_001 commit: abort when the index is empty; otherwise build the
commit record with the trimmed HEAD content as parent, hash its compact
serialization, store it, update HEAD, clear the index.  The third component
records the writes performed, in program order. -/
def commit (hashFn : Str → Str) (ts msg : Str) (s : RState) :
    CommitResult × RState × List Eff :=
  if s.index = [] then (CommitResult.nothingToCommit, s, [])
  else
    let parent := getCurrentHead s
    let data : CommitData := { timeStamp := ts, message := msg, files := s.index, parent := parent }
    let bytes := serializeCommit data
    let d := hashFn bytes
    (CommitResult.committed d,
     { s with store := putOver s.store d bytes, head := some d, index := [] },
     [Eff.writeObject d bytes, Eff.writeHead d, Eff.writeIndex []])

/-- part_001 getCommitData: read the object bytes under the digest and
JSON.parse them; null when missing or invalid. -/
def getCommitData (st : Store) (d : Str) : Option CommitData :=
  (lookupStore st d).bind parseCommit

/-- part_001 log loop body: while the current hash is truthy, read its
commit data (break when missing), yield it, move to its parent.  Fuelled:
the fuel passed by log bounds any acyclic chain in the store. -/
def logAux (st : Store) : Nat → Option Str → List (Str × CommitData)
  | 0, _ => []
  | _ + 1, none => []
  | f + 1, some d =>
    if d = [] then []
    else
      match getCommitData st d with
      | none => []
      | some c => (d, c) :: logAux st f c.parent

/-- part_001 log: start at the trimmed HEAD content and walk parent links. -/
def log (s : RState) : List (Str × CommitData) :=
  logAux s.store (s.store.length + 1) (getCurrentHead s)

/-- part_001 reset: filter out every entry whose path equals the argument;
report not-staged when the filtered index has the same length, otherwise
write the filtered index back. -/
def reset (s : RState) (p : Str) : ResetResult × RState :=
  let filtered := s.index.filter (fun e => decide (e.path ≠ p))
  if s.index.length = filtered.length then (ResetResult.notStaged, s)
  else (ResetResult.unstaged, { s with index := filtered })

/-- part_001 push: read the config (missing or unparseable reports
no-remote), require a non-null remote, a truthy HEAD and readable commit
data, then send one request whose outcome is the parameter resp (none models
a network exception).  No branch writes any local state. -/
def push (s : RState) (resp : Option Bool) : PushResult × RState :=
  match s.config with
  | none => (PushResult.noRemoteSet, s)
  | some none => (PushResult.remoteNotConfigured, s)
  | some (some _url) =>
    match getCurrentHead s with
    | none => (PushResult.nothingToPush, s)
    | some d =>
      if d = [] then (PushResult.nothingToPush, s)
      else
        match getCommitData s.store d with
        | none => (PushResult.commitDataMissing, s)
        | some _cd =>
          match resp with
          | some true => (PushResult.pushOk, s)
          | some false => (PushResult.pushFailed, s)
          | none => (PushResult.pushErrored, s)

end Part001

namespace Part000

/-- part_000 getCurrentHead: read the HEAD file, trim it, and coerce an
empty result to null (trim() || null). -/
def getCurrentHead (s : RState) : Option Str :=
  match s.head with
  | none => none
  | some t => if trimL t = [] then none else some (trimL t)

/-- part_000 updateStagingArea: before pushing the entry, check that the
working file still exists; if it vanished, drop the entry silently and
write the index back unchanged. -/
def updateStagingArea (fsys : Str → Option Str) (s : RState) (p d : Str) : RState :=
  match fsys p with
  | some _ => { s with index := s.index ++ [⟨p, d⟩] }
  | none => s

/-- part_000's object write inside add: fs.writeFile with the wx flag,
catching EEXIST — the store is untouched when the digest already has an
object, written once otherwise. -/
def putWx (st : Store) (d c : Str) : Store :=
  match lookupStore st d with
  | some _ => st
  | none => (d, c) :: st

/-- part_000 add: check the file exists, read it, hash it, write the blob
create-once, then stage it; errors are caught and reported. -/
def add (hashFn : Str → Str) (fsys : Str → Option Str) (s : RState) (p : Str) :
    AddResult × RState :=
  match fsys p with
  | none => (AddResult.addFailed, s)
  | some fileData =>
    let d := hashFn fileData
    let s1 := { s with store := putWx s.store d fileData }
    (AddResult.added, updateStagingArea fsys s1 p d)

/-- Shared tail of part_000 commit once all guards pass: build the record,
hash its compact serialization, store its pretty serialization, update HEAD,
clear the index. -/
def commitWrite (hashFn : Str → Str) (ts msg : Str) (s : RState) (parent : Option Str) :
    CommitResult × RState :=
  let data : CommitData := { timeStamp := ts, message := msg, files := s.index, parent := parent }
  let d := hashFn (serializeCommit data)
  (CommitResult.committed d,
   { s with store := putOver s.store d (serializeCommitPretty data), head := some d, index := [] })

/-- part_000 commit: reject a blank message; reject an empty index; when a
parent exists, read and parse its commit object (a failure propagates as an
exception, leaving the state untouched) and suppress the commit when the
parent's files serialize identically to the index. -/
def commit (hashFn : Str → Str) (ts msg : Str) (s : RState) : CommitResult × RState :=
  if trimL msg = [] then (CommitResult.emptyMessage, s)
  else if s.index = [] then (CommitResult.nothingToCommit, s)
  else
    match getCurrentHead s with
    | some p =>
      match lookupStore s.store p with
      | none => (CommitResult.parentReadFailed, s)
      | some bytes =>
        match parseCommit bytes with
        | none => (CommitResult.parentReadFailed, s)
        | some pc =>
          if serializeEntries pc.files = serializeEntries s.index
          then (CommitResult.noChanges, s)
          else commitWrite hashFn ts msg s (some p)
    | none => commitWrite hashFn ts msg s none

end Part000

/-- HEAD never dangles: whatever getCurrentHead yields is either the empty
string (falsy, treated as no tip) or a digest with a stored object. -/
def headOk (s : RState) : Prop :=
  ∀ d, Part001.getCurrentHead s = some d → d = [] ∨ (lookupStore s.store d).isSome = true

/-- Adding an object to the store preserves every existing lookup. -/
theorem lookupStore_putOver_isSome (st : Store) (d c k : Str)
    (h : (lookupStore st k).isSome = true) :
    (lookupStore (putOver st d c) k).isSome = true := by
  by_cases hdk : d = k <;> simp [putOver, lookupStore, hdk, h]

/-- C3: with an empty staging area, part_001's commit aborts immediately —
it reports nothing-to-commit, performs no write at all (empty effect trace,
so no object is stored, no hash is taken, HEAD and the index are untouched)
and returns the state unchanged. -/
theorem commit_empty_index_noop (hashFn : Str → Str) (ts msg : Str) (s : RState)
    (h : s.index = []) :
    Part001.commit hashFn ts msg s = (CommitResult.nothingToCommit, s, []) := by
  simp [Part001.commit, h]

/-- Witness for commit_empty_index_noop: the freshly initialized state has
an empty index and commit leaves it untouched. -/
theorem commit_empty_index_noop_witness :
    Part001.initState.index = [] ∧
    Part001.commit (fun b => b) (("T").data) (("m").data) Part001.initState
      = (CommitResult.nothingToCommit, Part001.initState, []) :=
  ⟨rfl, commit_empty_index_noop (fun b => b) (("T").data) (("m").data) Part001.initState rfl⟩

/-- C8: part_001's push never mutates local repository state — objects,
HEAD, index and config are returned unchanged on every path: unreadable
config, remote not configured, falsy HEAD, unreadable commit data, network
exception, failed response, or success. -/
theorem push_preserves_state (s : RState) (resp : Option Bool) :
    (Part001.push s resp).2 = s := by
  unfold Part001.push
  repeat' split
  all_goals rfl

/-- C9: resetting a path that has no entry in the staging area reports
not-staged and leaves the staging area (and the whole state) unchanged. -/
theorem reset_unstaged_path_reports_not_staged (s : RState) (p : Str)
    (h : ∀ e ∈ s.index, e.path ≠ p) :
    Part001.reset s p = (ResetResult.notStaged, s) := by
  have hf : List.filter (fun e => !decide (e.path = p)) s.index = s.index :=
    List.filter_eq_self.mpr (fun e he => by simpa using h e he)
  simp [Part001.reset, hf]

/-- Witness for reset_unstaged_path_reports_not_staged: a one-entry staging
area queried for a different path. -/
theorem reset_unstaged_path_reports_not_staged_witness :
    Part001.reset
      { store := [], head := none, index := [⟨("a.txt").data, ("h1").data⟩], config := none }
      (("b.txt").data)
    = (ResetResult.notStaged,
       { store := [], head := none, index := [⟨("a.txt").data, ("h1").data⟩], config := none }) :=
  reset_unstaged_path_reports_not_staged
    { store := [], head := none, index := [⟨("a.txt").data, ("h1").data⟩], config := none }
    (("b.txt").data) (by decide)

/-- C10: when the staging area holds two or more entries for a path, one
reset removes them all: the result is exactly the order-preserving filter
of the index, no entry with that path survives, and the remaining entries
form a sublist (same relative order) of the old index. -/
theorem reset_removes_all_entries_for_path (s : RState) (p : Str)
    (h2 : 2 ≤ (s.index.filter (fun e => decide (e.path = p))).length) :
    Part001.reset s p
      = (ResetResult.unstaged,
         { s with index := s.index.filter (fun e => decide (e.path ≠ p)) })
    ∧ (∀ e ∈ (Part001.reset s p).2.index, e.path ≠ p)
    ∧ (Part001.reset s p).2.index.Sublist s.index := by
  have hmem : ∃ e ∈ s.index, e.path = p := by
    rcases hx : s.index.filter (fun e => decide (e.path = p)) with _ | ⟨e, l⟩
    · rw [hx] at h2; simp at h2
    · have : e ∈ s.index.filter (fun e => decide (e.path = p)) := by rw [hx]; exact List.mem_cons_self e l
      rcases List.mem_filter.mp this with ⟨hin, hpe⟩
      exact ⟨e, hin, by simpa using hpe⟩
  have hne : ¬ (s.index.length = (List.filter (fun e => !decide (e.path = p)) s.index).length) := by
    intro hlen
    have hall := List.filter_length_eq_length.mp hlen.symm
    rcases hmem with ⟨e, hin, hpe⟩
    have := hall e hin
    simp [hpe] at this
  have hres : Part001.reset s p
      = (ResetResult.unstaged,
         { s with index := s.index.filter (fun e => decide (e.path ≠ p)) }) := by
    simp [Part001.reset, hne]
  refine ⟨hres, ?_, ?_⟩
  · intro e he
    rw [hres] at he
    simpa using (List.mem_filter.mp he).2
  · rw [hres]
    exact List.filter_sublist s.index

/-- Witness for reset_removes_all_entries_for_path: a staging area with two
entries for the same path around one other entry. -/
theorem reset_removes_all_entries_for_path_witness :
    Part001.reset
      { store := [], head := none,
        index := [⟨("a").data, ("1").data⟩, ⟨("b").data, ("2").data⟩, ⟨("a").data, ("3").data⟩],
        config := none }
      (("a").data)
      = (ResetResult.unstaged,
         { store := [], head := none,
           index := List.filter (fun e => decide (e.path ≠ ("a").data))
             [⟨("a").data, ("1").data⟩, ⟨("b").data, ("2").data⟩, ⟨("a").data, ("3").data⟩],
           config := none })
    ∧ (∀ e ∈ (Part001.reset
        { store := [], head := none,
          index := [⟨("a").data, ("1").data⟩, ⟨("b").data, ("2").data⟩, ⟨("a").data, ("3").data⟩],
          config := none } (("a").data)).2.index, e.path ≠ ("a").data)
    ∧ (Part001.reset
        { store := [], head := none,
          index := [⟨("a").data, ("1").data⟩, ⟨("b").data, ("2").data⟩, ⟨("a").data, ("3").data⟩],
          config := none } (("a").data)).2.index.Sublist
        [⟨("a").data, ("1").data⟩, ⟨("b").data, ("2").data⟩, ⟨("a").data, ("3").data⟩] :=
  reset_removes_all_entries_for_path
    { store := [], head := none,
      index := [⟨("a").data, ("1").data⟩, ⟨("b").data, ("2").data⟩, ⟨("a").data, ("3").data⟩],
      config := none }
    (("a").data) (by decide)

/-- C5: part_000's commit rejects an empty or whitespace-only message
before touching anything: it reports the invalid argument and returns the
state unchanged, so no object is written and HEAD and the index keep their
values. -/
theorem commit_blank_message_rejected (hashFn : Str → Str) (ts msg : Str) (s : RState)
    (h : trimL msg = []) :
    Part000.commit hashFn ts msg s = (CommitResult.emptyMessage, s) := by
  simp [Part000.commit, h]

/-- Witness for commit_blank_message_rejected: a whitespace-only message on
a state with a staged entry. -/
theorem commit_blank_message_rejected_witness :
    trimL (("  ").data) = [] ∧
    Part000.commit (fun b => b) (("T").data) (("  ").data)
      { store := [], head := none, index := [⟨("a").data, ("h").data⟩], config := none }
    = (CommitResult.emptyMessage,
       { store := [], head := none, index := [⟨("a").data, ("h").data⟩], config := none }) :=
  ⟨by decide,
   commit_blank_message_rejected (fun b => b) (("T").data) (("  ").data)
     { store := [], head := none, index := [⟨("a").data, ("h").data⟩], config := none }
     (by decide)⟩

/-- C6: part_000's updateStagingArea verifies the target file still exists
on the working filesystem; when it has vanished the entry is silently
dropped — the staging area (and whole state) after the call equals the one
before and no error is raised. -/
theorem updateStagingArea_drops_missing_file (fsys : Str → Option Str) (s : RState) (p d : Str)
    (h : fsys p = none) :
    Part000.updateStagingArea fsys s p d = s := by
  simp [Part000.updateStagingArea, h]

/-- Witness for updateStagingArea_drops_missing_file: an empty working
filesystem and a one-entry staging area. -/
theorem updateStagingArea_drops_missing_file_witness :
    Part000.updateStagingArea (fun _ => none)
      { store := [], head := none, index := [⟨("a").data, ("h").data⟩], config := none }
      (("b").data) (("h2").data)
    = { store := [], head := none, index := [⟨("a").data, ("h").data⟩], config := none } :=
  updateStagingArea_drops_missing_file (fun _ => none)
    { store := [], head := none, index := [⟨("a").data, ("h").data⟩], config := none }
    (("b").data) (("h2").data) rfl

/-- C4: part_000's object write (fs.writeFile with the wx flag, EEXIST
ignored) is idempotent — when an object already exists under the digest the
store is returned unchanged, so the stored bytes are untouched and no error
escapes; an object once written under a digest is never rewritten. -/
theorem putWx_existing_object_unchanged (hashFn : Str → Str) (st : Store) (d c b : Str)
    (_hd : d = hashFn c) (hex : lookupStore st d = some b) :
    Part000.putWx st d c = st := by
  simp [Part000.putWx, hex]

/-- Witness for putWx_existing_object_unchanged: a store already holding
bytes under the digest of the content being re-put. -/
theorem putWx_existing_object_unchanged_witness :
    Part000.putWx [((("D").data), (("x").data))] (("D").data) (("x").data)
      = [((("D").data), (("x").data))] :=
  putWx_existing_object_unchanged (fun _ => ("D").data)
    [((("D").data), (("x").data))] (("D").data) (("x").data) (("x").data) rfl (by decide)

/-- C1: part_000's duplicate-commit suppression — with a valid message, a
non-empty staging area, a non-null HEAD whose commit object is readable,
and the staged entries serializing identically to that parent commit's
files list, commit creates no new object, leaves HEAD (and the whole state)
unchanged, and reports that nothing changed. -/
theorem commit_duplicate_suppressed (hashFn : Str → Str) (ts msg : Str) (s : RState)
    (p bytes : Str) (pc : CommitData)
    (hmsg : trimL msg ≠ [])
    (hidx : s.index ≠ [])
    (hhead : Part000.getCurrentHead s = some p)
    (hbytes : lookupStore s.store p = some bytes)
    (hparse : parseCommit bytes = some pc)
    (heq : serializeEntries pc.files = serializeEntries s.index) :
    Part000.commit hashFn ts msg s = (CommitResult.noChanges, s) := by
  simp [Part000.commit, hmsg, hidx, hhead, hbytes, hparse, heq]

/-- Parent commit used by the witness of commit_duplicate_suppressed. -/
def c1Parent : CommitData :=
  { timeStamp := ("T0").data, message := ("m0").data,
    files := [⟨("a.txt").data, ("x").data⟩], parent := none }

/-- Repository state used by the witness of commit_duplicate_suppressed:
HEAD points at a stored parent commit (in part_000's pretty stored form)
whose files equal the staged entries. -/
def c1State : RState :=
  { store := [((("d0").data), serializeCommitPretty c1Parent)],
    head := some (("d0").data),
    index := [⟨("a.txt").data, ("x").data⟩],
    config := none }

set_option maxRecDepth 16000 in
/-- Witness for commit_duplicate_suppressed: re-committing the unchanged
staging area is suppressed. -/
theorem commit_duplicate_suppressed_witness :
    Part000.commit (fun b => b) (("T1").data) (("second").data) c1State
      = (CommitResult.noChanges, c1State) :=
  commit_duplicate_suppressed (fun b => b) (("T1").data) (("second").data) c1State
    (("d0").data) (serializeCommitPretty c1Parent) c1Parent
    (by decide) (by decide) (by decide) (by decide) (by decide) (by decide)

/-- C7: in every successful part_001 commit the effect trace is exactly
object-write, then HEAD-write, then index-clear — the commit object is
fully stored before HEAD moves — replaying the trace reproduces the final
state, and provided HEAD did not dangle before and digests carry no
surrounding whitespace, HEAD references a stored object at every
intermediate point of the operation. -/
theorem commit_object_written_before_head (hashFn : Str → Str) (ts msg : Str) (s : RState)
    (hidx : s.index ≠ [])
    (htrim : ∀ b, trimL (hashFn b) = hashFn b)
    (hOk : headOk s) :
    ∃ d bytes,
      (Part001.commit hashFn ts msg s).2.2
        = [Eff.writeObject d bytes, Eff.writeHead d, Eff.writeIndex []]
      ∧ (Part001.commit hashFn ts msg s).1 = CommitResult.committed d
      ∧ List.foldl applyEff s ((Part001.commit hashFn ts msg s).2.2)
          = (Part001.commit hashFn ts msg s).2.1
      ∧ ∀ k, headOk (List.foldl applyEff s (((Part001.commit hashFn ts msg s).2.2).take k)) := by
  refine ⟨hashFn (serializeCommit ⟨ts, msg, s.index, Part001.getCurrentHead s⟩),
          serializeCommit ⟨ts, msg, s.index, Part001.getCurrentHead s⟩, ?_, ?_, ?_, ?_⟩
  · simp [Part001.commit, hidx]
  · simp [Part001.commit, hidx]
  · simp [Part001.commit, hidx, applyEff]
  · intro k
    have htrace : (Part001.commit hashFn ts msg s).2.2
        = [Eff.writeObject (hashFn (serializeCommit ⟨ts, msg, s.index, Part001.getCurrentHead s⟩))
             (serializeCommit ⟨ts, msg, s.index, Part001.getCurrentHead s⟩),
           Eff.writeHead (hashFn (serializeCommit ⟨ts, msg, s.index, Part001.getCurrentHead s⟩)),
           Eff.writeIndex []] := by
      simp [Part001.commit, hidx]
    rw [htrace]
    have htD : trimL (hashFn (serializeCommit ⟨ts, msg, s.index, Part001.getCurrentHead s⟩))
        = hashFn (serializeCommit ⟨ts, msg, s.index, Part001.getCurrentHead s⟩) := htrim _
    revert htD
    generalize hashFn (serializeCommit ⟨ts, msg, s.index, Part001.getCurrentHead s⟩) = D
    generalize serializeCommit ⟨ts, msg, s.index, Part001.getCurrentHead s⟩ = B
    intro htD
    match k with
    | 0 => simpa using hOk
    | 1 =>
      intro d' hd'
      have hgc : Part001.getCurrentHead
          (List.foldl applyEff s ([Eff.writeObject D B, Eff.writeHead D, Eff.writeIndex []].take 1))
          = Part001.getCurrentHead s := rfl
      rw [hgc] at hd'
      rcases hOk d' hd' with h0 | h0
      · exact Or.inl h0
      · refine Or.inr ?_
        have hst : (List.foldl applyEff s
            ([Eff.writeObject D B, Eff.writeHead D, Eff.writeIndex []].take 1)).store
            = putOver s.store D B := rfl
        rw [hst]
        exact lookupStore_putOver_isSome _ _ _ _ h0
    | 2 =>
      intro d' hd'
      have hgc : Part001.getCurrentHead
          (List.foldl applyEff s ([Eff.writeObject D B, Eff.writeHead D, Eff.writeIndex []].take 2))
          = some (trimL D) := rfl
      rw [hgc, htD] at hd'
      have hd2 := Option.some.inj hd'
      subst hd2
      refine Or.inr ?_
      have hst : (List.foldl applyEff s
          ([Eff.writeObject D B, Eff.writeHead D, Eff.writeIndex []].take 2)).store
          = putOver s.store D B := rfl
      rw [hst]
      simp [putOver, lookupStore]
    | n + 3 =>
      intro d' hd'
      have hfull : ([Eff.writeObject D B, Eff.writeHead D, Eff.writeIndex []]).take (n + 3)
          = [Eff.writeObject D B, Eff.writeHead D, Eff.writeIndex []] := by simp
      rw [hfull] at hd' ⊢
      have hgc : Part001.getCurrentHead
          (List.foldl applyEff s [Eff.writeObject D B, Eff.writeHead D, Eff.writeIndex []])
          = some (trimL D) := rfl
      rw [hgc, htD] at hd'
      have hd2 := Option.some.inj hd'
      subst hd2
      refine Or.inr ?_
      have hst : (List.foldl applyEff s
          [Eff.writeObject D B, Eff.writeHead D, Eff.writeIndex []]).store
          = putOver s.store D B := rfl
      rw [hst]
      simp [putOver, lookupStore]

/-- Witness for commit_object_written_before_head: a state with one staged
entry, no HEAD file and a constant digest function. -/
theorem commit_object_written_before_head_witness :
    ({ store := [], head := none, index := [⟨("a").data, ("h").data⟩], config := none } : RState).index ≠ []
    ∧ ∃ d bytes,
      (Part001.commit (fun _ => ("d1").data) (("T").data) (("m").data)
        { store := [], head := none, index := [⟨("a").data, ("h").data⟩], config := none }).2.2
        = [Eff.writeObject d bytes, Eff.writeHead d, Eff.writeIndex []]
      ∧ (Part001.commit (fun _ => ("d1").data) (("T").data) (("m").data)
          { store := [], head := none, index := [⟨("a").data, ("h").data⟩], config := none }).1
          = CommitResult.committed d
      ∧ List.foldl applyEff
          { store := [], head := none, index := [⟨("a").data, ("h").data⟩], config := none }
          ((Part001.commit (fun _ => ("d1").data) (("T").data) (("m").data)
            { store := [], head := none, index := [⟨("a").data, ("h").data⟩], config := none }).2.2)
          = (Part001.commit (fun _ => ("d1").data) (("T").data) (("m").data)
              { store := [], head := none, index := [⟨("a").data, ("h").data⟩], config := none }).2.1
      ∧ ∀ k, headOk (List.foldl applyEff
          { store := [], head := none, index := [⟨("a").data, ("h").data⟩], config := none }
          (((Part001.commit (fun _ => ("d1").data) (("T").data) (("m").data)
            { store := [], head := none, index := [⟨("a").data, ("h").data⟩], config := none }).2.2).take k)) :=
  ⟨by decide,
   commit_object_written_before_head (fun _ => ("d1").data) (("T").data) (("m").data)
     { store := [], head := none, index := [⟨("a").data, ("h").data⟩], config := none }
     (by decide) (fun _ => rfl)
     (fun d h => by simp [Part001.getCurrentHead] at h)⟩

/-- Working filesystem for the commit-linkage run: one file a.txt with
content x. -/
def c2Fsys : Str → Option Str :=
  fun p => if p = ("a.txt").data then some (("x").data) else none

/-- The commit record the first commit after a fresh part_001 init builds:
its parent is the string main, the initial content of the HEAD file, not
null. -/
def c2Commit : CommitData :=
  { timeStamp := ("T1").data, message := ("m1").data,
    files := [⟨("a.txt").data, ("x").data⟩], parent := some (("main").data) }

/-- State after add a.txt and one commit, starting from part_001's fresh
init (digest function: identity, which is injective). -/
def c2State : RState :=
  (Part001.commit (fun b => b) (("T1").data) (("m1").data)
    (Part001.add (fun b => b) c2Fsys Part001.initState (("a.txt").data)).2).2.1

set_option maxRecDepth 16000 in
/-- C2: after one successful commit from a freshly initialized part_001
repository, log yields exactly that one commit — but the oldest commit's
parent is the string main (the initial HEAD file content), not null, and
the traversal ends because the object lookup for main fails, contradicting
the claim that the Nth commit's parent is null. -/
theorem log_first_commit_parent_is_main_not_null :
    Part001.log c2State = [(serializeCommit c2Commit, c2Commit)]
    ∧ c2Commit.parent = some (("main").data)
    ∧ c2Commit.parent ≠ none
    ∧ Part001.getCommitData c2State.store (("main").data) = none := by
  refine ⟨by decide, rfl, by decide, by decide⟩
